import Mathlib

/-!
Verification of the falconpanel input-to-event translation layer
(`src/components.h`, second/authoritative revision).

The C++ components are shallowly embedded as Lean functions:

* every class becomes a structure holding its mutable fields;
* every method becomes a function from state (plus the tick's sampled
  inputs) to state, together with the list of calls it makes on its
  inner `Button`/axis channels, recorded as explicit event values;
* C++ `int` fields become `Int`, `bool` becomes `Bool`, `float` values
  are embedded as exact rationals `ℚ` (the algorithms only compare,
  add, subtract, multiply and divide sampled values, so the control
  flow is faithfully reproduced by exact arithmetic).

Definitions are direct transcriptions of the source; theorems at the
end of the file settle the specification claims.
-/

namespace Falconpanel

/-! ## MomentaryButton (`components.h`, class `MomentaryButton`)

Fields `_duration` and `_countdown`; the wrapped inner button is
modelled by recording the `press`/`release` calls made on it. -/

/-- Calls made on the inner button of a `MomentaryButton`. -/
inductive MBEvent where
  | innerPress : MBEvent
  | innerRelease : MBEvent
deriving DecidableEq, Repr

/-- Mutable state of a `MomentaryButton`: the configured `_duration`
and the `_countdown` field. -/
structure MBState where
  duration : Int
  countdown : Int
deriving DecidableEq, Repr

/-- Constructor `MomentaryButton(inner, duration)`.  The C++ code
leaves `_countdown` uninitialized, so the initial countdown is an
explicit parameter. -/
def mbInit (duration countdown0 : Int) : MBState :=
  ⟨duration, countdown0⟩

/-- `MomentaryButton::press`: forwards `press()` to the inner button
and sets `_countdown = _duration`. -/
def mbPress (s : MBState) : MBState × List MBEvent :=
  ({ s with countdown := s.duration }, [MBEvent.innerPress])

/-- `MomentaryButton::release`: forwards `release()` to the inner
button and sets `_countdown = 0`. -/
def mbRelease (s : MBState) : MBState × List MBEvent :=
  ({ s with countdown := 0 }, [MBEvent.innerRelease])

/-- `MomentaryButton::update`: if `_countdown > 0`, decrement it and,
when it reaches 0, call `release()` on the inner button. -/
def mbUpdate (s : MBState) : MBState × List MBEvent :=
  if 0 < s.countdown then
    let s' := { s with countdown := s.countdown - 1 }
    if s'.countdown = 0 then (s', [MBEvent.innerRelease]) else (s', [])
  else
    (s, [])

/-- Run `update()` a number of times, concatenating the inner-button
calls of every tick. -/
def mbRunUpdates (s : MBState) : Nat → MBState × List MBEvent
  | 0 => (s, [])
  | n + 1 =>
      let r := mbUpdate s
      let rest := mbRunUpdates r.1 n
      (rest.1, r.2 ++ rest.2)

/-! ## OnOffSwitch (`components.h`, class `OnOffSwitch`)

Constants `UP = 0`, `MIDDLE = 1`, `DOWN = 2`, `NONE = -1`. -/

def UP : Int := 0
def MIDDLE : Int := 1
def DOWN : Int := 2
def NONE : Int := -1

/-- Calls made by an `OnOffSwitch` on its two button channels:
the periodic `update()` of each, and the `press`/`release` calls
issued through `setButton`. -/
inductive OSEvent where
  | updUp : OSEvent
  | updDown : OSEvent
  | pressUp : OSEvent
  | releaseUp : OSEvent
  | pressDown : OSEvent
  | releaseDown : OSEvent
deriving DecidableEq, Repr

/-- Mutable state of an `OnOffSwitch`: the `_last` field. -/
structure OSState where
  last : Int
deriving DecidableEq, Repr

/-- Field initializer `int _last = NONE`. -/
def osInit : OSState := ⟨NONE⟩

/-- `setButton(button, state)` for the up channel. -/
def setButtonUp (state : Bool) : OSEvent :=
  if state then OSEvent.pressUp else OSEvent.releaseUp

/-- `setButton(button, state)` for the down channel. -/
def setButtonDown (state : Bool) : OSEvent :=
  if state then OSEvent.pressDown else OSEvent.releaseDown

/-- `OnOffSwitch::update`, with the tick's sampled `_in->read()` value
passed explicitly.  Both buttons get `update()`; `current` is `UP`
when the active-low sample is `false`, else `DOWN`; on a change the
two channels are set through `setButton` and `_last` is recorded. -/
def osUpdate (s : OSState) (readVal : Bool) : OSState × List OSEvent :=
  let current : Int := if !readVal then UP else DOWN
  if current ≠ s.last then
    (⟨current⟩,
      [OSEvent.updUp, OSEvent.updDown,
       setButtonUp (current = UP), setButtonDown (current = DOWN)])
  else
    (s, [OSEvent.updUp, OSEvent.updDown])

/-- Run `OnOffSwitch::update` over a list of sampled values,
concatenating each tick's channel calls. -/
def osRun (s : OSState) : List Bool → OSState × List OSEvent
  | [] => (s, [])
  | v :: rest =>
      let r := osUpdate s v
      let t := osRun r.1 rest
      (t.1, r.2 ++ t.2)

/-! ## RotaryEncoder (`components.h`, class `RotaryEncoder`)

Quadrature decoder.  Edge events are encoded as in the source:
`1` rising on phase 1, `-1` falling on phase 1, `2` rising on phase 2,
`-2` falling on phase 2, `0` empty slot.  The fields `enqForward` and
`enqBackward` are instrumentation only: they count how often a pending
pulse was actually enqueued (they are incremented exactly where the
source increments `_pendingForward`/`_pendingBackward`) and are read
by no part of the transcribed logic. -/

/-- Mutable state of a `RotaryEncoder`, plus the two instrumentation
counters described above. -/
structure REState where
  pendingForward : Int
  pendingBackward : Int
  pressed : Bool
  last1 : Bool
  last2 : Bool
  lastEvent : Int
  penultimateEvent : Int
  queueLimit : Int
  enqForward : Nat
  enqBackward : Nat
deriving DecidableEq, Repr

/-- Constructor `RotaryEncoder(in1, in2, fwd, bwd, queueLimit)`. -/
def reInit (queueLimit : Int) : REState :=
  ⟨0, 0, false, false, false, 0, 0, queueLimit, 0, 0⟩

/-- First block of `RotaryEncoder::update`: record rising/falling
transitions of the two phases against `_last1`/`_last2` into
`_penultimateEvent`/`_lastEvent`. -/
def reRecord (s : REState) (val1 val2 : Bool) : REState :=
  let s1 :=
    if val1 ∧ ¬s.last1 then
      { s with penultimateEvent := s.lastEvent, lastEvent := 1 }
    else if ¬val1 ∧ s.last1 then
      { s with penultimateEvent := s.lastEvent, lastEvent := -1 }
    else s
  if val2 ∧ ¬s1.last2 then
    { s1 with penultimateEvent := s1.lastEvent, lastEvent := 2 }
  else if ¬val2 ∧ s1.last2 then
    { s1 with penultimateEvent := s1.lastEvent, lastEvent := -2 }
  else s1

/-- Second block of `RotaryEncoder::update`: match the two most recent
recorded events against the two valid falling/falling pairs, enqueue a
pending pulse (up to `_queueLimit`) and clear both event slots. -/
def reMatch (s : REState) : REState :=
  if s.lastEvent = -2 ∧ s.penultimateEvent = -1 then
    let s1 :=
      if s.pendingForward < s.queueLimit then
        { s with pendingForward := s.pendingForward + 1,
                 enqForward := s.enqForward + 1 }
      else s
    { s1 with lastEvent := 0, penultimateEvent := 0 }
  else if s.lastEvent = -1 ∧ s.penultimateEvent = -2 then
    let s1 :=
      if s.pendingBackward < s.queueLimit then
        { s with pendingBackward := s.pendingBackward + 1,
                 enqBackward := s.enqBackward + 1 }
      else s
    { s1 with lastEvent := 0, penultimateEvent := 0 }
  else s

/-- `_last1 = val1; _last2 = val2;` -/
def reSetLast (s : REState) (val1 val2 : Bool) : REState :=
  { s with last1 := val1, last2 := val2 }

/-- Final block of `RotaryEncoder::update`: drain pending pulses with
the shared press/release toggle `_pressed`. -/
def reDrain (s : REState) : REState :=
  if 0 < s.pendingForward then
    if s.pressed then
      { s with pressed := false, pendingForward := s.pendingForward - 1 }
    else
      { s with pressed := true }
  else if 0 < s.pendingBackward then
    if s.pressed then
      { s with pressed := false, pendingBackward := s.pendingBackward - 1 }
    else
      { s with pressed := true }
  else
    { s with pressed := false }

/-- `RotaryEncoder::update` for one tick, with the two sampled phase
values passed explicitly. -/
def reUpdate (s : REState) (val1 val2 : Bool) : REState :=
  reDrain (reSetLast (reMatch (reRecord s val1 val2)) val1 val2)

/-- Run `RotaryEncoder::update` over a list of sampled phase pairs. -/
def reRun (s : REState) : List (Bool × Bool) → REState
  | [] => s
  | p :: rest => reRun (reUpdate s p.1 p.2) rest

/-- Whether a state's two event slots hold one of the two valid
falling/falling pairs (the match condition of `reMatch`). -/
def reMatchesPair (s : REState) : Bool :=
  (s.lastEvent == -2 && s.penultimateEvent == -1) ||
  (s.lastEvent == -1 && s.penultimateEvent == -2)

/-- Whether, somewhere along a run, the state right after edge
recording completes a valid falling/falling pair. -/
def reRunSeesPair (s : REState) : List (Bool × Bool) → Bool
  | [] => false
  | p :: rest =>
      reMatchesPair (reRecord s p.1 p.2) ||
      reRunSeesPair (reUpdate s p.1 p.2) rest

/-- Canonical forward four-phase input sequence
(0,0)→(1,0)→(1,1)→(0,1)→(0,0). -/
def reForwardSeq : List (Bool × Bool) :=
  [(false, false), (true, false), (true, true), (false, true), (false, false)]

/-- The reversed four-phase input sequence
(0,0)→(0,1)→(1,1)→(1,0)→(0,0). -/
def reReverseSeq : List (Bool × Bool) :=
  [(false, false), (false, true), (true, true), (true, false), (false, false)]

/-- A noisy input sequence: phase 1 toggles, phase 2 never moves, so
no valid falling/falling pair ever completes. -/
def reNoisySeq : List (Bool × Bool) :=
  [(true, false), (false, false), (true, false), (false, false)]

/-- A state whose two event slots hold, in temporal order, falling on
phase 1 (penultimate) then falling on phase 2 (most recent), with
empty queues and the default queue limit. -/
def reFall1ThenFall2 : REState :=
  ⟨0, 0, false, false, false, -2, -1, 2, 0, 0⟩

/-- A state whose two event slots hold, in temporal order, falling on
phase 2 (penultimate) then falling on phase 1 (most recent), with
empty queues and the default queue limit. -/
def reFall2ThenFall1 : REState :=
  ⟨0, 0, false, true, false, -1, -2, 2, 0, 0⟩

/-- The queue-bound invariant of a `RotaryEncoder` state: both pending
counters lie between 0 and the configured queue limit. -/
def reInv (s : REState) : Prop :=
  0 ≤ s.pendingForward ∧ s.pendingForward ≤ s.queueLimit ∧
  0 ≤ s.pendingBackward ∧ s.pendingBackward ≤ s.queueLimit

/-! ## DxAxis (`components.h`, class `DxAxis`) -/

/-- `DxAxis::report`: the value forwarded to the underlying adapter,
`min(max(val, 0.0), 1.0)`. -/
def dxAxisReport (val : ℚ) : ℚ :=
  min (max val 0) 1

/-! ## SwitchingRotary (`components.h`, class `SwitchingRotary`) -/

/-- Calls made by a `SwitchingRotary` on its two button channels and
its axis; `axis q` records the value passed to `_dxAxis->report`. -/
inductive SREvent where
  | updOn : SREvent
  | updOff : SREvent
  | pressOn : SREvent
  | releaseOn : SREvent
  | pressOff : SREvent
  | releaseOff : SREvent
  | axis : ℚ → SREvent
deriving DecidableEq, Repr

/-- Mutable state of a `SwitchingRotary`: `_last` and `_threshold`. -/
structure SRState where
  last : ℚ
  threshold : ℚ
deriving DecidableEq, Repr

/-- Constructor `SwitchingRotary(in, dxAxis, on, off, threshold)`:
sets `_last = -1` and stores the threshold as given. -/
def srInit (threshold : ℚ) : SRState :=
  ⟨-1, threshold⟩

/-- `SwitchingRotary::update`, with the tick's sampled `_in->read()`
value passed explicitly. -/
def srUpdate (s : SRState) (val : ℚ) : SRState × List SREvent :=
  let buttonEvents : List SREvent :=
    if s.threshold ≤ val ∧ s.last < s.threshold then
      [SREvent.pressOn, SREvent.releaseOff]
    else if val ≤ s.threshold ∧ s.threshold < s.last then
      [SREvent.releaseOn, SREvent.pressOff]
    else []
  let axisEvent : SREvent :=
    if s.threshold ≤ val then
      SREvent.axis ((val - s.threshold) / (1 - s.threshold))
    else
      SREvent.axis 0
  ({ s with last := val },
   [SREvent.updOn, SREvent.updOff] ++ buttonEvents ++ [axisEvent])

/-- Run `SwitchingRotary::update` over a list of sampled values. -/
def srRun (s : SRState) : List ℚ → SRState × List SREvent
  | [] => (s, [])
  | v :: rest =>
      let r := srUpdate s v
      let t := srRun r.1 rest
      (t.1, r.2 ++ t.2)

/-- The value carried by an axis event, if any. -/
def srAxisPayload : SREvent → Option ℚ
  | SREvent.axis q => some q
  | _ => none

/-! ## IC74LS151 (`components.h`, class `IC74LS151`)

The three address-output lines are the shared mutable circuit state; a
simulated circuit determines the shared input line's value from the
address currently driven on those lines. -/

/-- State of the three address-output lines (`_dout0.._dout2`). -/
structure MuxLines where
  a0 : Bool
  a1 : Bool
  a2 : Bool
deriving DecidableEq, Repr

/-- The 3-bit address encoded on the lines (line `k` carries bit `k`). -/
def linesAddr (m : MuxLines) : Nat :=
  (cond m.a0 1 0) + 2 * (cond m.a1 1 0) + 4 * (cond m.a2 1 0)

/-- `IC74LS151::read(addr0, addr1, addr2)` against a simulated circuit
mapping each 3-bit address to a fixed boolean: first drive the three
address-output lines, then sample the shared input line, whose value
the circuit computes from the lines as just driven. -/
def muxRead (circuit : Nat → Bool) (addr0 addr1 addr2 : Bool)
    (_m : MuxLines) : Bool × MuxLines :=
  let m' : MuxLines := ⟨addr0, addr1, addr2⟩
  (circuit (linesAddr m'), m')

/-- `IC54LS151InputLine::read` for the virtual source built by
`input(addr)`: `bitRead(addr, k)` supplies the `k`-th address bit. -/
def muxVirtualRead (circuit : Nat → Bool) (addr : Nat) (m : MuxLines) :
    Bool × MuxLines :=
  muxRead circuit (addr.testBit 0) (addr.testBit 1) (addr.testBit 2) m

/-- Read a sequence of virtual sources in the given order, threading
the shared address-line state from read to read. -/
def muxReadAll (circuit : Nat → Bool) (m : MuxLines) :
    List Nat → List Bool
  | [] => []
  | a :: rest =>
      let r := muxVirtualRead circuit a m
      r.1 :: muxReadAll circuit r.2 rest

/-! ## PulseRotary (`components.h`, class `PulseRotary`) -/

/-- Mutable state of a `PulseRotary`. -/
structure PRState where
  last : ℚ
  nextUpLow1 : ℚ
  nextUpHigh1 : ℚ
  nextDownLow1 : ℚ
  nextDownHigh1 : ℚ
  nextUpLow2 : ℚ
  nextUpHigh2 : ℚ
  nextDownLow2 : ℚ
  nextDownHigh2 : ℚ
  stepSize : ℚ
  pendingUp : Int
  pendingDown : Int
  pressed : Bool
deriving DecidableEq, Repr

/-- `PulseRotary::between(val, low, high)`. -/
def prBetween (val low high : ℚ) : Bool :=
  decide (low ≤ val ∧ val ≤ high)

/-- `PulseRotary::updateThresholds`: recompute the four candidate
trigger windows from `_last`, special-casing positions near 0, near 1,
and on either side of 0.5. -/
def prUpdateThresholds (s : PRState) : PRState :=
  let opposite0 : ℚ := s.last + 1/2
  let opposite : ℚ := if (1 : ℚ) ≤ opposite0 then opposite0 - 1 else opposite0
  if prBetween s.last 0 s.stepSize then
    { s with nextUpLow1 := s.last + s.stepSize, nextUpHigh1 := opposite,
             nextUpLow2 := -1, nextUpHigh2 := -1,
             nextDownLow1 := opposite,
             nextDownHigh1 := s.last - s.stepSize + 1,
             nextDownLow2 := -1, nextDownHigh2 := -1 }
  else if prBetween s.last (1 - s.stepSize) 1 then
    { s with nextUpLow1 := s.last + s.stepSize - 1, nextUpHigh1 := opposite,
             nextUpLow2 := -1, nextUpHigh2 := -1,
             nextDownLow1 := opposite, nextDownHigh1 := s.last - s.stepSize,
             nextDownLow2 := -1, nextDownHigh2 := -1 }
  else if prBetween s.last (1/2 - s.stepSize) (1/2) then
    { s with nextUpLow1 := s.last + s.stepSize, nextUpHigh1 := opposite,
             nextUpLow2 := -1, nextUpHigh2 := -1,
             nextDownLow1 := 0, nextDownHigh1 := s.last - s.stepSize,
             nextDownLow2 := opposite, nextDownHigh2 := 1 }
  else if prBetween s.last (1/2) (1/2 + s.stepSize) then
    { s with nextUpLow1 := s.last + s.stepSize, nextUpHigh1 := 1,
             nextUpLow2 := 0, nextUpHigh2 := opposite,
             nextDownLow1 := opposite, nextDownHigh1 := s.last - s.stepSize,
             nextDownLow2 := -1, nextDownHigh2 := -1 }
  else if prBetween s.last s.stepSize (1/2) then
    { s with nextUpLow1 := s.last + s.stepSize, nextUpHigh1 := opposite,
             nextUpLow2 := -1, nextUpHigh2 := -1,
             nextDownLow1 := 0, nextDownHigh1 := s.last - s.stepSize,
             nextDownLow2 := opposite, nextDownHigh2 := 1 }
  else
    { s with nextUpLow1 := s.last + s.stepSize, nextUpHigh1 := 1,
             nextUpLow2 := 0, nextUpHigh2 := opposite,
             nextDownLow1 := opposite, nextDownHigh1 := s.last - s.stepSize,
             nextDownLow2 := -1, nextDownHigh2 := -1 }

/-- Constructor `PulseRotary(in, up, down, divisions)`: `_last = 0`,
`_stepSize = 1/divisions`, thresholds computed, queues empty. -/
def prInit (divisions : Int) : PRState :=
  prUpdateThresholds
    ⟨0, 0, 0, 0, 0, 0, 0, 0, 0, 1 / (divisions : ℚ), 0, 0, false⟩

/-- Step-detection block of `PulseRotary::update`: if the reading
falls in a down window, zero the up queue and enqueue one down pulse;
if it falls in an up window, enqueue one up pulse and zero the down
queue; either way re-home `_last` and recompute windows. -/
def prDetect (s : PRState) (val : ℚ) : PRState :=
  if prBetween val s.nextDownLow1 s.nextDownHigh1 ||
     prBetween val s.nextDownLow2 s.nextDownHigh2 then
    prUpdateThresholds
      { s with pendingUp := 0, pendingDown := s.pendingDown + 1,
               last := val }
  else if prBetween val s.nextUpLow1 s.nextUpHigh1 ||
          prBetween val s.nextUpLow2 s.nextUpHigh2 then
    prUpdateThresholds
      { s with pendingUp := s.pendingUp + 1, pendingDown := 0,
               last := val }
  else s

/-- Drain block of `PulseRotary::update`: pending pulses are expressed
through the shared press/release toggle `_pressed`. -/
def prDrain (s : PRState) : PRState :=
  if 0 < s.pendingUp then
    if s.pressed then
      { s with pressed := false, pendingUp := s.pendingUp - 1 }
    else
      { s with pressed := true }
  else if 0 < s.pendingDown then
    if s.pressed then
      { s with pressed := false, pendingDown := s.pendingDown - 1 }
    else
      { s with pressed := true }
  else
    { s with pressed := false }

/-- `PulseRotary::update` for one tick, with the sampled reading
passed explicitly. -/
def prUpdate (s : PRState) (val : ℚ) : PRState :=
  prDrain (prDetect s val)

/-- Run `PulseRotary::update` over a list of sampled readings. -/
def prRun (s : PRState) : List ℚ → PRState
  | [] => s
  | v :: rest => prRun (prUpdate s v) rest

end Falconpanel

namespace Falconpanel

/-! ## Theorems -/

theorem mbUpdate_zero (s : Falconpanel.MBState) (h : s.countdown = 0) :
    mbUpdate s = (s, []) := by
  simp [mbUpdate, h]

theorem mbRunUpdates_zero (s : Falconpanel.MBState) (h : s.countdown = 0) :
    ∀ k, mbRunUpdates s k = (s, []) := by
  intro k
  induction k with
  | zero => rfl
  | succ n ih =>
      simp [mbRunUpdates, mbUpdate_zero s h, ih]

/-- C3: with `duration = 3`, `press()` followed by three `update()`
calls releases the inner button exactly once, on the third update; in
general, while the countdown is `n > 0` an `update()` decrements it
and calls the inner `release()` iff `n - 1 = 0`, emitting nothing
otherwise. -/
theorem momentary_timing :
    ((mbUpdate (mbPress (mbInit 3 0)).1).2 = [] ∧
     (mbUpdate (mbUpdate (mbPress (mbInit 3 0)).1).1).2 = [] ∧
     (mbUpdate (mbUpdate (mbUpdate (mbPress (mbInit 3 0)).1).1).1).2 =
       [MBEvent.innerRelease]) ∧
    ∀ s : MBState, 0 < s.countdown →
      (mbUpdate s).1.countdown = s.countdown - 1 ∧
      ((mbUpdate s).2 = [MBEvent.innerRelease] ↔ s.countdown - 1 = 0) ∧
      (s.countdown - 1 ≠ 0 → (mbUpdate s).2 = []) := by
  constructor
  · refine ⟨by decide, by decide, by decide⟩
  · intro s h
    simp only [mbUpdate, if_pos h]
    by_cases h0 : s.countdown - 1 = 0 <;> simp [h0]

/-- Witness for `momentary_timing` at a concrete state with
countdown 2. -/
theorem momentary_timing_witness :
    0 < (2 : Int) ∧
    (mbUpdate (mbInit 3 2)).1.countdown = 2 - 1 ∧
    ((mbUpdate (mbInit 3 2)).2 = [MBEvent.innerRelease] ↔ (2 : Int) - 1 = 0) ∧
    ((2 : Int) - 1 ≠ 0 → (mbUpdate (mbInit 3 2)).2 = []) :=
  ⟨by decide, momentary_timing.2 (mbInit 3 2) (by decide)⟩

/-- C4: `press()` then (within the countdown) `release()` cancels the
pending auto-release: the subsequent `update()` calls, however many,
make no further calls on the inner button until `press()` again. -/
theorem release_precedence (d c0 : Int) (j : Nat) (k : Nat)
    (hj : (j : Int) < d) :
    (mbRunUpdates
        (mbRelease (mbRunUpdates (mbPress (mbInit d c0)).1 j).1).1 k).2
      = [] := by
  have hz : (mbRelease (mbRunUpdates (mbPress (mbInit d c0)).1 j).1).1.countdown = 0 := rfl
  exact congrArg Prod.snd (mbRunUpdates_zero _ hz k)

/-- Witness for `release_precedence`: duration 3, release after one
update, then five more updates. -/
theorem release_precedence_witness :
    ((1 : Nat) : Int) < 3 ∧
    (mbRunUpdates
        (mbRelease (mbRunUpdates (mbPress (mbInit 3 0)).1 1).1).1 5).2 = [] :=
  ⟨by decide, release_precedence 3 0 1 5 (by decide)⟩

theorem osUpdate_steady (v : Bool) :
    osUpdate ⟨if !v then UP else DOWN⟩ v =
      (⟨if !v then UP else DOWN⟩, [OSEvent.updUp, OSEvent.updDown]) := by
  cases v <;> decide

theorem osRun_steady (v : Bool) :
    ∀ n, osRun ⟨if !v then UP else DOWN⟩ (List.replicate n v) =
      (⟨if !v then UP else DOWN⟩,
        (List.replicate n [OSEvent.updUp, OSEvent.updDown]).flatten) := by
  intro n
  induction n with
  | zero => rfl
  | succ m ih =>
      simp only [List.replicate_succ, osRun, osUpdate_steady v, ih,
        List.flatten_cons]

theorem reRecord_fields (s : Falconpanel.REState) (v1 v2 : Bool) :
    (reRecord s v1 v2).pendingForward = s.pendingForward ∧
    (reRecord s v1 v2).pendingBackward = s.pendingBackward ∧
    (reRecord s v1 v2).queueLimit = s.queueLimit ∧
    (reRecord s v1 v2).enqForward = s.enqForward ∧
    (reRecord s v1 v2).enqBackward = s.enqBackward := by
  unfold reRecord
  dsimp only
  split_ifs <;> exact ⟨rfl, rfl, rfl, rfl, rfl⟩

theorem reMatch_fields (s : Falconpanel.REState) :
    (reMatch s).queueLimit = s.queueLimit := by
  unfold reMatch
  split_ifs <;> rfl

theorem reDrain_fields (s : Falconpanel.REState) :
    (reDrain s).queueLimit = s.queueLimit ∧
    (reDrain s).enqForward = s.enqForward ∧
    (reDrain s).enqBackward = s.enqBackward := by
  unfold reDrain
  split_ifs <;> exact ⟨rfl, rfl, rfl⟩

theorem reUpdate_queueLimit (s : Falconpanel.REState) (v1 v2 : Bool) :
    (reUpdate s v1 v2).queueLimit = s.queueLimit := by
  unfold reUpdate reSetLast
  rw [(reDrain_fields _).1, reMatch_fields, (reRecord_fields s v1 v2).2.2.1]

theorem reRun_queueLimit (s : Falconpanel.REState) :
    ∀ l, (reRun s l).queueLimit = s.queueLimit := by
  intro l
  induction l generalizing s with
  | nil => rfl
  | cons p rest ih => rw [reRun, ih, reUpdate_queueLimit]

theorem reMatch_of_no_pair (s : Falconpanel.REState)
    (h : reMatchesPair s = false) : reMatch s = s := by
  have hp1 : ¬(s.lastEvent = -2 ∧ s.penultimateEvent = -1) := by
    intro hc
    unfold reMatchesPair at h
    rw [hc.1, hc.2] at h
    exact absurd h (by decide)
  have hp2 : ¬(s.lastEvent = -1 ∧ s.penultimateEvent = -2) := by
    intro hc
    unfold reMatchesPair at h
    rw [hc.1, hc.2] at h
    exact absurd h (by decide)
  unfold reMatch
  rw [if_neg hp1, if_neg hp2]

theorem reRun_enq_of_no_pair (s : Falconpanel.REState) :
    ∀ l, reRunSeesPair s l = false →
      (reRun s l).enqForward = s.enqForward ∧
      (reRun s l).enqBackward = s.enqBackward := by
  intro l
  induction l generalizing s with
  | nil => exact fun _ => ⟨rfl, rfl⟩
  | cons p rest ih =>
      intro h
      rw [reRunSeesPair, Bool.or_eq_false_iff] at h
      have hstep : reUpdate s p.1 p.2 =
          reDrain (reSetLast (reRecord s p.1 p.2) p.1 p.2) := by
        rw [reUpdate, reMatch_of_no_pair _ h.1]
      have := ih (reUpdate s p.1 p.2) h.2
      rw [reRun, this.1, this.2, hstep]
      unfold reSetLast
      rw [(reDrain_fields _).2.1, (reDrain_fields _).2.2]
      exact ⟨(reRecord_fields s p.1 p.2).2.2.2.1,
             (reRecord_fields s p.1 p.2).2.2.2.2⟩

/-- C1: from the constructed state (`_last1 = _last2 = false`, empty
event slots, default `queueLimit = 2`) the canonical forward
four-phase sequence enqueues exactly one forward and no backward
pulse; the reversed sequence enqueues exactly one backward and no
forward pulse; and any input sequence that never completes a valid
falling/falling pair enqueues nothing in either direction. -/
theorem rotary_quadrature_correct :
    ((reRun (reInit 2) reForwardSeq).enqForward = 1 ∧
     (reRun (reInit 2) reForwardSeq).enqBackward = 0) ∧
    ((reRun (reInit 2) reReverseSeq).enqForward = 0 ∧
     (reRun (reInit 2) reReverseSeq).enqBackward = 1) ∧
    ∀ l : List (Bool × Bool), reRunSeesPair (reInit 2) l = false →
      (reRun (reInit 2) l).enqForward = 0 ∧
      (reRun (reInit 2) l).enqBackward = 0 := by
  refine ⟨by decide, by decide, fun l h => ?_⟩
  exact reRun_enq_of_no_pair (reInit 2) l h

/-- Witness for `rotary_quadrature_correct`: a concrete noisy sequence
that never completes a valid pair enqueues nothing. -/
theorem rotary_quadrature_correct_witness :
    reRunSeesPair (reInit 2) reNoisySeq = false ∧
    (reRun (reInit 2) reNoisySeq).enqForward = 0 ∧
    (reRun (reInit 2) reNoisySeq).enqBackward = 0 :=
  ⟨by decide, rotary_quadrature_correct.2.2 reNoisySeq (by decide)⟩

/-- C2 counterexample: in a state whose two most recent recorded edge
events are, in temporal order, falling-on-phase-2 followed by
falling-on-phase-1 (`penultimateEvent = -2`, `lastEvent = -1`), the
claim requires a forward pulse, but the match step enqueues a backward
pulse and no forward one. -/
theorem rotary_pair_direction_counterexample :
    reFall2ThenFall1.penultimateEvent = -2 ∧
    reFall2ThenFall1.lastEvent = -1 ∧
    (reMatch reFall2ThenFall1).pendingForward = 0 ∧
    (reMatch reFall2ThenFall1).enqForward = 0 ∧
    (reMatch reFall2ThenFall1).pendingBackward = 1 := by
  decide

/-- C2 (amended): a forward pulse is enqueued (up to `queueLimit`)
exactly when the two most recent recorded edge events are, in temporal
order, falling-on-phase-1 followed by falling-on-phase-2
(`penultimateEvent = -1`, `lastEvent = -2`); a backward pulse exactly
in the mirrored case; after either match both event slots are cleared;
any other combination leaves the state unchanged. -/
theorem rotary_pair_direction (s : REState) :
    ((s.lastEvent = -2 ∧ s.penultimateEvent = -1) →
      (reMatch s).pendingForward =
        (if s.pendingForward < s.queueLimit then s.pendingForward + 1
         else s.pendingForward) ∧
      (reMatch s).pendingBackward = s.pendingBackward ∧
      (reMatch s).lastEvent = 0 ∧ (reMatch s).penultimateEvent = 0) ∧
    ((s.lastEvent = -1 ∧ s.penultimateEvent = -2) →
      (reMatch s).pendingBackward =
        (if s.pendingBackward < s.queueLimit then s.pendingBackward + 1
         else s.pendingBackward) ∧
      (reMatch s).pendingForward = s.pendingForward ∧
      (reMatch s).lastEvent = 0 ∧ (reMatch s).penultimateEvent = 0) ∧
    (reMatchesPair s = false → reMatch s = s) := by
  refine ⟨?_, ?_, reMatch_of_no_pair s⟩
  · intro h
    unfold reMatch
    rw [if_pos h]
    split_ifs <;> exact ⟨rfl, rfl, rfl, rfl⟩
  · intro h
    have hne : ¬(s.lastEvent = -2 ∧ s.penultimateEvent = -1) := by
      intro hc; rw [hc.1] at h; exact absurd h.1 (by decide)
    unfold reMatch
    rw [if_neg hne, if_pos h]
    split_ifs <;> exact ⟨rfl, rfl, rfl, rfl⟩

/-- Witness for `rotary_pair_direction`: the falling-1-then-falling-2
state enqueues a forward pulse and clears both slots. -/
theorem rotary_pair_direction_witness :
    reFall1ThenFall2.lastEvent = -2 ∧
    reFall1ThenFall2.penultimateEvent = -1 ∧
    (reMatch reFall1ThenFall2).pendingForward = 1 ∧
    (reMatch reFall1ThenFall2).pendingBackward = 0 ∧
    (reMatch reFall1ThenFall2).lastEvent = 0 ∧
    (reMatch reFall1ThenFall2).penultimateEvent = 0 := by
  have h := (rotary_pair_direction reFall1ThenFall2).1 ⟨rfl, rfl⟩
  refine ⟨rfl, rfl, ?_, h.2.1, h.2.2.1, h.2.2.2⟩
  rw [h.1]; decide

theorem reInv_reRecord (s : Falconpanel.REState) (v1 v2 : Bool)
    (h : reInv s) : reInv (reRecord s v1 v2) := by
  have hf := reRecord_fields s v1 v2
  unfold reInv
  rw [hf.1, hf.2.1, hf.2.2.1]
  exact h

theorem reInv_reMatch (s : Falconpanel.REState) (h : reInv s) :
    reInv (reMatch s) := by
  obtain ⟨h1, h2, h3, h4⟩ := h
  unfold reInv reMatch
  split_ifs <;> refine ⟨?_, ?_, ?_, ?_⟩ <;> (try simp) <;> omega

theorem reInv_reDrain (s : Falconpanel.REState) (h : reInv s) :
    reInv (reDrain s) := by
  obtain ⟨h1, h2, h3, h4⟩ := h
  unfold reInv reDrain
  split_ifs <;> refine ⟨?_, ?_, ?_, ?_⟩ <;> (try simp) <;> omega

theorem reInv_reRun (s : Falconpanel.REState) :
    ∀ l, reInv s → reInv (reRun s l) := by
  intro l
  induction l generalizing s with
  | nil => exact id
  | cons p rest ih =>
      intro h
      exact ih _ (reInv_reDrain _ (reInv_reMatch _ (reInv_reRecord s p.1 p.2 h)))

/-- C7: with any configured `queueLimit = q ≥ 1`, both pending
counters of a `RotaryEncoder` stay in `[0, q]` in every reachable
state — the increment is skipped once a counter has reached `q`, so
the excess pulse is silently dropped. -/
theorem rotary_queue_bound (q : Int) (l : List (Bool × Bool))
    (hq : 1 ≤ q) :
    0 ≤ (reRun (reInit q) l).pendingForward ∧
    (reRun (reInit q) l).pendingForward ≤ q ∧
    0 ≤ (reRun (reInit q) l).pendingBackward ∧
    (reRun (reInit q) l).pendingBackward ≤ q := by
  have h0 : reInv (reInit q) := by
    unfold reInv reInit
    refine ⟨?_, ?_, ?_, ?_⟩ <;> dsimp only <;> omega
  have h := reInv_reRun (reInit q) l h0
  rw [reInv, reRun_queueLimit (reInit q) l] at h
  exact h

/-- Witness for `rotary_queue_bound`: `queueLimit = 2` and three rapid
forward cycles. -/
theorem rotary_queue_bound_witness :
    (1 : Int) ≤ 2 ∧
    0 ≤ (reRun (reInit 2) (reForwardSeq ++ reForwardSeq ++ reForwardSeq)).pendingForward ∧
    (reRun (reInit 2) (reForwardSeq ++ reForwardSeq ++ reForwardSeq)).pendingForward ≤ 2 ∧
    0 ≤ (reRun (reInit 2) (reForwardSeq ++ reForwardSeq ++ reForwardSeq)).pendingBackward ∧
    (reRun (reInit 2) (reForwardSeq ++ reForwardSeq ++ reForwardSeq)).pendingBackward ≤ 2 :=
  ⟨by decide,
   rotary_queue_bound 2 (reForwardSeq ++ reForwardSeq ++ reForwardSeq) (by decide)⟩

/-- C6: a `SwitchingRotary` with `threshold = 1/5` driven with samples
`[1/10, 3/10, 1/10]` fires `on.press()` exactly once (at the `3/10`
sample) and `off.press()` exactly once (at the final `1/10` sample);
the axis value reported for `3/10` is `(3/10 - 1/5)/(1 - 1/5) = 1/8`;
and in general every tick reports `(val - threshold)/(1 - threshold)`
to the axis when `val ≥ threshold` and exactly `0` otherwise. -/
theorem switching_rotary_hysteresis :
    (srRun (srInit (1/5)) [1/10, 3/10, 1/10]).2 =
      [SREvent.updOn, SREvent.updOff, SREvent.axis 0,
       SREvent.updOn, SREvent.updOff, SREvent.pressOn, SREvent.releaseOff,
         SREvent.axis (1/8),
       SREvent.updOn, SREvent.updOff, SREvent.releaseOn, SREvent.pressOff,
         SREvent.axis 0] ∧
    (1 : ℚ) / 8 = ((3 : ℚ)/10 - 1/5) / (1 - 1/5) ∧
    ∀ (s : SRState) (val : ℚ),
      (srUpdate s val).2.filterMap srAxisPayload =
        [if s.threshold ≤ val then (val - s.threshold) / (1 - s.threshold)
         else 0] := by
  refine ⟨by norm_num [srRun, srUpdate, srInit], by norm_num, ?_⟩
  intro s val
  dsimp only [srUpdate]
  split_ifs <;> simp [srAxisPayload]

/-- C8 counterexample: a `SwitchingRotary` constructed with the
out-of-range threshold `-1/2` uses it unclamped: the first sample
`1/4` is reported to the axis as `(1/4 + 1/2)/(1 + 1/2) = 1/2`,
whereas a threshold clamped into `[0,1]` (namely `0`) would make the
code report `1/4`. -/
theorem threshold_clamp_counterexample :
    (srRun (srInit (-(1 : ℚ)/2)) [1/4]).2.filterMap srAxisPayload
        = [(1 : ℚ)/2] ∧
    ((1 : ℚ)/4 - min (max (-(1 : ℚ)/2) 0) 1) /
        (1 - min (max (-(1 : ℚ)/2) 0) 1) = (1 : ℚ)/4 ∧
    ((1 : ℚ)/2 ≠ (1 : ℚ)/4) := by
  refine ⟨?_, by norm_num, by norm_num⟩
  norm_num [srRun, srUpdate, srInit]
  simp [List.filterMap_cons, srAxisPayload]

/-- C8 (amended): a value reported to a `DxAxis` is clamped into
`[0,1]` before being forwarded to the adapter and no error is raised;
a `SwitchingRotary`'s configured threshold, however, is stored and
used exactly as given, with no clamping. -/
theorem axis_clamp_threshold_unclamped (val t : ℚ) :
    dxAxisReport val = min (max val 0) 1 ∧
    0 ≤ dxAxisReport val ∧ dxAxisReport val ≤ 1 ∧
    (srInit t).threshold = t :=
  ⟨rfl, le_min (le_trans (le_refl 0) (le_max_right val 0)) zero_le_one,
   min_le_right _ _, rfl⟩

/-- C5: an `OnOffSwitch` driven for `n + 1` ticks with an unchanged
sampled value emits, regardless of that value, exactly one
press/release pair via `setButton` — on the first tick, forced by the
`_last = NONE` sentinel — and on every tick (first included) exactly
the periodic `update()` of both buttons. -/
theorem onoff_debounce (v : Bool) (n : Nat) :
    (osRun osInit (List.replicate (n + 1) v)).2 =
      [OSEvent.updUp, OSEvent.updDown,
       setButtonUp (!v), setButtonDown v] ++
      (List.replicate n [OSEvent.updUp, OSEvent.updDown]).flatten := by
  have hfirst :
      osUpdate osInit v =
        (⟨if !v then UP else DOWN⟩,
          [OSEvent.updUp, OSEvent.updDown,
           setButtonUp (!v), setButtonDown v]) := by
    cases v <;> decide
  simp only [List.replicate_succ, osRun, hfirst, osRun_steady v n]

theorem linesAddr_bits (a : Nat) (h : a < 8) :
    linesAddr ⟨a.testBit 0, a.testBit 1, a.testBit 2⟩ = a := by
  interval_cases a <;> rfl

/-- C9: against a simulated circuit mapping each 3-bit address to a
fixed boolean, a virtual read for address `a < 8` drives the three
address lines to the bits of `a` and then samples, so it returns
exactly `circuit a` whatever the lines held before; consequently
reading any sequence of valid addresses, in any order, returns each
address's own value. -/
theorem mux_roundtrip :
    (∀ (circuit : Nat → Bool) (m : MuxLines) (a : Nat), a < 8 →
      (muxVirtualRead circuit a m).1 = circuit a ∧
      (muxVirtualRead circuit a m).2 =
        ⟨a.testBit 0, a.testBit 1, a.testBit 2⟩) ∧
    ∀ (circuit : Nat → Bool) (m : MuxLines) (addrs : List Nat),
      (∀ a ∈ addrs, a < 8) →
      muxReadAll circuit m addrs = addrs.map circuit := by
  have hsingle : ∀ (circuit : Nat → Bool) (m : MuxLines) (a : Nat),
      a < 8 →
      (muxVirtualRead circuit a m).1 = circuit a ∧
      (muxVirtualRead circuit a m).2 =
        ⟨a.testBit 0, a.testBit 1, a.testBit 2⟩ := by
    intro circuit m a h
    exact ⟨congrArg circuit (linesAddr_bits a h), rfl⟩
  refine ⟨hsingle, ?_⟩
  intro circuit m addrs
  induction addrs generalizing m with
  | nil => intro _; rfl
  | cons a rest ih =>
      intro h
      have ha := h a (List.mem_cons_self a rest)
      rw [muxReadAll, List.map_cons,
        (hsingle circuit m a ha).1]
      exact congrArg _ (ih _ fun b hb => h b (List.mem_cons_of_mem a hb))

/-- Witness for `mux_roundtrip`: a concrete circuit read at address 5,
and the eight addresses read in a shuffled order. -/
theorem mux_roundtrip_witness :
    ((5 : Nat) < 8 ∧
      (muxVirtualRead (fun a => a.testBit 0) 5 ⟨false, false, false⟩).1 =
        (fun a : Nat => a.testBit 0) 5) ∧
    ((∀ a ∈ [7, 2, 5, 0, 3, 6, 1, 4], a < 8) ∧
      muxReadAll (fun a => a.testBit 0) ⟨false, false, false⟩
          [7, 2, 5, 0, 3, 6, 1, 4] =
        [7, 2, 5, 0, 3, 6, 1, 4].map (fun a : Nat => a.testBit 0)) :=
  ⟨⟨by decide,
    (mux_roundtrip.1 (fun a => a.testBit 0) ⟨false, false, false⟩ 5
      (by decide)).1⟩,
   ⟨by decide,
    mux_roundtrip.2 (fun a => a.testBit 0) ⟨false, false, false⟩
      [7, 2, 5, 0, 3, 6, 1, 4] (by decide)⟩⟩

theorem prUpdateThresholds_pending (s : Falconpanel.PRState) :
    (prUpdateThresholds s).pendingUp = s.pendingUp ∧
    (prUpdateThresholds s).pendingDown = s.pendingDown := by
  unfold prUpdateThresholds
  dsimp only
  split_ifs <;> exact ⟨rfl, rfl⟩

theorem prDetect_excl (s : Falconpanel.PRState) (val : ℚ)
    (h : s.pendingUp = 0 ∨ s.pendingDown = 0) :
    (prDetect s val).pendingUp = 0 ∨ (prDetect s val).pendingDown = 0 := by
  unfold prDetect
  split_ifs
  · exact Or.inl ((prUpdateThresholds_pending _).1)
  · exact Or.inr ((prUpdateThresholds_pending _).2)
  · exact h

theorem prDrain_excl (s : Falconpanel.PRState)
    (h : s.pendingUp = 0 ∨ s.pendingDown = 0) :
    (prDrain s).pendingUp = 0 ∨ (prDrain s).pendingDown = 0 := by
  unfold prDrain
  split_ifs <;> dsimp only <;> omega

/-- C10: in every reachable state of a `PulseRotary`, at most one of
the two pending-pulse counters is nonzero: detecting a step in one
direction zeroes the opposite direction's pending count, discarding
any queued pulses of the opposite direction. -/
theorem pulse_rotary_exclusive (divisions : Int) (l : List ℚ) :
    (prRun (prInit divisions) l).pendingUp = 0 ∨
    (prRun (prInit divisions) l).pendingDown = 0 := by
  have hpre : ∀ (t : List ℚ) (s : PRState),
      s.pendingUp = 0 ∨ s.pendingDown = 0 →
      (prRun s t).pendingUp = 0 ∨ (prRun s t).pendingDown = 0 := by
    intro t
    induction t with
    | nil => exact fun s h => h
    | cons v rest ih =>
        intro s h
        exact ih _ (prDrain_excl _ (prDetect_excl s v h))
  refine hpre l (prInit divisions) ?_
  exact Or.inl ((prUpdateThresholds_pending _).1)

end Falconpanel
